import Mathlib

set_option maxHeartbeats 1000000
set_option maxRecDepth 8192

namespace DatamuleWidgets

/-!
Shallow embedding of the remote-CSV indicator pipeline of `src/main.py`:
the generic widget logic `create_format1_indicator_endpoint_logic`
(header validation, row filtering/coercion, empty-result classification and
its translation to an HTTP response), and the option listers
`fetch_options_sync` / `get_unique_components_from_csv`.

The CSV tokenizer models the `csv` module reader with the default excel
dialect (delimiter `,`, quote `"` with doubling, non-strict).  End-of-line
handling is simplified: CR, LF and CRLF each terminate a record, and the
reader's strict-mode / stray-CR error states are not modelled (no input used
below contains a bare CR).  `DictReader` semantics — lazy header row, blank
records skipped during iteration, duplicate header names resolved to the
last occurrence, short rows padded with missing values — are modelled
exactly in `pyRowGet` and `dataRowsOf`.
-/

/-- States of the CSV tokenizer, mirroring the reader states of the `csv`
module (START_RECORD, START_FIELD, IN_FIELD, IN_QUOTED_FIELD,
QUOTE_IN_QUOTED_FIELD). -/
inductive CsvState
  | startRecord
  | startField
  | inField
  | inQuoted
  | quoteQuoted
deriving DecidableEq

/-- The CSV tokenizer loop: current state, remaining characters, characters
of the field being built, fields of the record being built; returns the list
of parsed records. -/
def csvRun : CsvState → List Char → List Char → List String → List (List String)
  | .startRecord, [], _, _ => []
  | .startField, [], fld, rec => [rec ++ [fld.asString]]
  | .inField, [], fld, rec => [rec ++ [fld.asString]]
  | .inQuoted, [], fld, rec => [rec ++ [fld.asString]]
  | .quoteQuoted, [], fld, rec => [rec ++ [fld.asString]]
  | .startRecord, '\r' :: '\n' :: cs, _, _ => [] :: csvRun .startRecord cs [] []
  | .startRecord, '\n' :: cs, _, _ => [] :: csvRun .startRecord cs [] []
  | .startRecord, '\r' :: cs, _, _ => [] :: csvRun .startRecord cs [] []
  | .startRecord, '"' :: cs, _, _ => csvRun .inQuoted cs [] []
  | .startRecord, ',' :: cs, _, _ => csvRun .startField cs [] [""]
  | .startRecord, c :: cs, _, _ => csvRun .inField cs [c] []
  | .startField, '\r' :: '\n' :: cs, fld, rec => (rec ++ [fld.asString]) :: csvRun .startRecord cs [] []
  | .startField, '\n' :: cs, fld, rec => (rec ++ [fld.asString]) :: csvRun .startRecord cs [] []
  | .startField, '\r' :: cs, fld, rec => (rec ++ [fld.asString]) :: csvRun .startRecord cs [] []
  | .startField, '"' :: cs, fld, rec => csvRun .inQuoted cs fld rec
  | .startField, ',' :: cs, fld, rec => csvRun .startField cs [] (rec ++ [fld.asString])
  | .startField, c :: cs, fld, rec => csvRun .inField cs (fld ++ [c]) rec
  | .inField, '\r' :: '\n' :: cs, fld, rec => (rec ++ [fld.asString]) :: csvRun .startRecord cs [] []
  | .inField, '\n' :: cs, fld, rec => (rec ++ [fld.asString]) :: csvRun .startRecord cs [] []
  | .inField, '\r' :: cs, fld, rec => (rec ++ [fld.asString]) :: csvRun .startRecord cs [] []
  | .inField, ',' :: cs, fld, rec => csvRun .startField cs [] (rec ++ [fld.asString])
  | .inField, c :: cs, fld, rec => csvRun .inField cs (fld ++ [c]) rec
  | .inQuoted, '"' :: cs, fld, rec => csvRun .quoteQuoted cs fld rec
  | .inQuoted, c :: cs, fld, rec => csvRun .inQuoted cs (fld ++ [c]) rec
  | .quoteQuoted, '"' :: cs, fld, rec => csvRun .inQuoted cs (fld ++ ['"']) rec
  | .quoteQuoted, ',' :: cs, fld, rec => csvRun .startField cs [] (rec ++ [fld.asString])
  | .quoteQuoted, '\r' :: '\n' :: cs, fld, rec => (rec ++ [fld.asString]) :: csvRun .startRecord cs [] []
  | .quoteQuoted, '\n' :: cs, fld, rec => (rec ++ [fld.asString]) :: csvRun .startRecord cs [] []
  | .quoteQuoted, '\r' :: cs, fld, rec => (rec ++ [fld.asString]) :: csvRun .startRecord cs [] []
  | .quoteQuoted, c :: cs, fld, rec => csvRun .inField cs (fld ++ [c]) rec

/-- Parse a raw CSV text into its records, as `csv.reader` over an
`io.StringIO` of the text does. -/
def parseCsv (raw : String) : List (List String) :=
  csvRun CsvState.startRecord raw.data [] []

/-- ASCII whitespace as recognised by Python's `str.strip()`. -/
def isWsChar (c : Char) : Bool :=
  c = ' ' ∨ c = '\t' ∨ c = '\n' ∨ c = '\r' ∨ c = '\x0b' ∨ c = '\x0c'

/-- Python's `str.strip()` (ASCII whitespace). -/
def pyStrip (s : String) : String :=
  ⟨((s.data.dropWhile isWsChar).reverse.dropWhile isWsChar).reverse⟩

/-- Last index at which `k` occurs in `hdr`, if any. -/
def lastIdx (k : String) : List String → Option Nat
  | [] => none
  | h :: t =>
    match lastIdx k t with
    | some j => some (j + 1)
    | none => if h = k then some 0 else none

/-- `DictReader` row lookup `row.get(k)`: the row dict is
`dict(zip(fieldnames, row))` with keys `fieldnames[len(row):]` filled with
`None`, so duplicate header names resolve to the *last* occurrence and a key
whose (last) column is beyond the row's length maps to `None`. -/
def pyRowGet (hdr row : List String) (k : String) : Option String :=
  match lastIdx k hdr with
  | none => none
  | some j => row[j]?

/-- Validity of the tail of a digit run in a Python numeric literal:
underscores may appear only between two digits. -/
def digitRunTail : List Char → Bool
  | [] => true
  | '_' :: c :: cs => c.isDigit && digitRunTail cs
  | ['_'] => false
  | c :: cs => c.isDigit && digitRunTail cs

/-- A valid (nonempty) digit run, possibly with underscores between digits,
as accepted by `float()`. -/
def digitRun : List Char → Bool
  | [] => false
  | c :: cs => c.isDigit && digitRunTail cs

/-- Value of a list of decimal digit characters. -/
def natOfDigits (cs : List Char) : Nat :=
  cs.foldl (fun n c => 10 * n + (c.toNat - 48)) 0

/-- Split a character list at the first `e`/`E`, if any. -/
def splitOnExp : List Char → List Char × Option (List Char)
  | [] => ([], none)
  | c :: cs =>
    if c = 'e' ∨ c = 'E' then ([], some cs)
    else
      let p := splitOnExp cs
      (c :: p.1, p.2)

/-- Split a character list at the first `.`, if any. -/
def splitOnDot : List Char → List Char × Option (List Char)
  | [] => ([], none)
  | c :: cs =>
    if c = '.' then ([], some cs)
    else
      let p := splitOnDot cs
      (c :: p.1, p.2)

/-- Result of Python's `float()` on a string.  A finite value is kept
exactly as `mantissa * 10 ^ tenExp` (the rounding of in-range finite values
to binary64 is not modelled; only the finite / infinite / NaN outcome, which
is what the claims depend on, is). -/
inductive PyFloat
  | finite (mantissa : Int) (tenExp : Int)
  | infinity (neg : Bool)
  | nan
deriving DecidableEq

/-- Whether a `PyFloat` is a finite value. -/
def PyFloat.isFinite : PyFloat → Bool
  | .finite _ _ => true
  | _ => false

/-- The binary64 overflow threshold `2^1024 - 2^970 = 2^970 * (2^54 - 1)`:
under round-to-nearest-even, decimal literals of magnitude at least this
value convert to an infinity (as `float("1e400")` does in Python). -/
def floatOverflowBound : Nat := 2 ^ 970 * (2 ^ 54 - 1)

/-- Whether the magnitude `digitsVal * 10 ^ tenExp` reaches the binary64
overflow threshold. -/
def overflows (digitsVal : Nat) (tenExp : Int) : Bool :=
  if 0 ≤ tenExp then
    floatOverflowBound ≤ digitsVal * 10 ^ tenExp.toNat
  else
    floatOverflowBound * 10 ^ (-tenExp).toNat ≤ digitsVal

/-- Parse the unsigned decimal body of a `float()` literal
(`digits [. digits] [(e|E) [sign] digits]`, underscores between digits,
at least one mantissa digit), returning the digit value and the power of
ten it is scaled by. -/
def decMagnitude (body : List Char) : Option (Nat × Int) :=
  let me := splitOnExp body
  let ip := (splitOnDot me.1).1
  let fp := (splitOnDot me.1).2.getD []
  if (ip.isEmpty || digitRun ip) && (fp.isEmpty || digitRun fp)
      && !(ip.isEmpty && fp.isEmpty) then
    let ipd := ip.filter (fun c => c ≠ '_')
    let fpd := fp.filter (fun c => c ≠ '_')
    let digitsVal := natOfDigits (ipd ++ fpd)
    match me.2 with
    | none => some (digitsVal, -(fpd.length : Int))
    | some ecs =>
      let se : Bool × List Char :=
        match ecs with
        | '+' :: t => (false, t)
        | '-' :: t => (true, t)
        | t => (false, t)
      if digitRun se.2 then
        let ev : Int := natOfDigits (se.2.filter (fun c => c ≠ '_'))
        some (digitsVal, (if se.1 then -ev else ev) - (fpd.length : Int))
      else none
  else none

/-- Python's `float()` on a string: strip whitespace, optional sign, then
`inf` / `infinity` / `nan` (case-insensitive) or a decimal literal; decimal
magnitudes at or beyond the binary64 overflow threshold give an infinity.
Returns `none` where `float()` raises `ValueError`. -/
def parsePyFloat (s : String) : Option PyFloat :=
  let sn : Bool × List Char :=
    match (pyStrip s).data with
    | '+' :: t => (false, t)
    | '-' :: t => (true, t)
    | t => (false, t)
  let lower := sn.2.map Char.toLower
  if lower = ("inf").data ∨ lower = ("infinity").data then
    some (PyFloat.infinity sn.1)
  else if lower = ("nan").data then
    some PyFloat.nan
  else
    match decMagnitude sn.2 with
    | none => none
    | some mv =>
      if overflows mv.1 mv.2 then some (PyFloat.infinity sn.1)
      else some (PyFloat.finite (if sn.1 then -(mv.1 : Int) else (mv.1 : Int)) mv.2)

/-- One element of the returned series: the dict
`{"filing_date": date_str, "count": float(count_str)}` built by the row
loop of `create_format1_indicator_endpoint_logic`. -/
structure Entry where
  filing_date : String
  count : PyFloat
deriving DecidableEq

/-- The CSV's header row (`reader.fieldnames`); the empty list stands for
both a missing first record (`None`) and an empty one. -/
def headerOf (raw : String) : List String :=
  (parseCsv raw).head?.getD []

/-- The header list reported in the schema-error message:
`reader.fieldnames or ["None"]`. -/
def foundHeadersOf (raw : String) : List String :=
  if headerOf raw = [] then ["None"] else headerOf raw

/-- The data records iterated by `DictReader` after the header row: all
records but the first, with blank records skipped. -/
def dataRowsOf (raw : String) : List (List String) :=
  ((parseCsv raw).drop 1).filter (fun r => r ≠ [])

/-- The required header names `expected_headers = ["filing_date", "count",
"component"]`. -/
def requiredHeaders : List String :=
  ["filing_date", "count", "component"]

/-- The body of the row loop: a row contributes an entry exactly when its
`component` equals the discriminator (exact string equality), its `count`
and `filing_date` are present and nonempty after stripping, and `float` on
the `count` string succeeds (a `ValueError` only skips the row). -/
def rowEntry (hdr : List String) (disc : String) (row : List String) : Option Entry :=
  if pyRowGet hdr row "component" = some disc then
    match pyRowGet hdr row "count", pyRowGet hdr row "filing_date" with
    | some cs, some ds =>
      if pyStrip cs ≠ "" ∧ pyStrip ds ≠ "" then
        match parsePyFloat cs with
        | some v => some ⟨ds, v⟩
        | none => none
      else none
    | _, _ => none
  else none

/-- The `processed_data` list: entries of the matching valid rows, in the
CSV's original row order. -/
def seriesOf (raw disc : String) : List Entry :=
  (dataRowsOf raw).filterMap (rowEntry (headerOf raw) disc)

/-- The `component` values collected by the second pass over `rows`
(`if comp is not None: all_components.add(comp)`), without duplicates. -/
def componentsOfRows (hdr : List String) (rows : List (List String)) : List String :=
  (rows.filterMap (fun r => pyRowGet hdr r "component")).dedup

/-- Outcome of the extraction part of
`create_format1_indicator_endpoint_logic` (everything after a successful
fetch), before it is turned into an HTTP response.  `secondPassExhausted` is
the `StopIteration` raised by `next(temp_reader)` when the file has no data
rows.  Note that the second pass re-reads the stream with a fresh
`DictReader` whose `fieldnames` access consumes the header row, so the
`next(temp_reader)` call drops the *first data row*, not the header. -/
inductive ExtractResult
  | ok (series : List Entry)
  | schemaError (expected found : List String)
  | unknownDiscriminator (disc : String) (samples : List String) (more : Bool)
  | noUsableData (disc : String)
  | secondPassExhausted
deriving DecidableEq

/-- The extraction logic of `create_format1_indicator_endpoint_logic`:
validate headers, build `processed_data`, and on an empty result classify
the cause from the components found by the second pass (which starts after
`next(temp_reader)`, i.e. from the second data row on). -/
def extract (raw disc : String) : ExtractResult :=
  if headerOf raw = [] ∨ ¬ (∀ h ∈ requiredHeaders, h ∈ headerOf raw) then
    ExtractResult.schemaError requiredHeaders (foundHeadersOf raw)
  else if seriesOf raw disc = [] then
    match dataRowsOf raw with
    | [] => ExtractResult.secondPassExhausted
    | _ :: rest =>
      if disc ∉ componentsOfRows (headerOf raw) rest ∧ "component" ∈ headerOf raw then
        ExtractResult.unknownDiscriminator disc
          ((componentsOfRows (headerOf raw) rest).take 5)
          (decide (5 < (componentsOfRows (headerOf raw) rest).length))
      else ExtractResult.noUsableData disc
  else ExtractResult.ok (seriesOf raw disc)

/-- Python's `", ".join`. -/
def joinSep (sep : String) : List String → String
  | [] => ""
  | [x] => x
  | x :: xs => x ++ sep ++ joinSep sep xs

/-- An HTTP response as delivered to the widget caller: either a JSON data
array or an error status with a `detail` string. -/
inductive HttpResponse
  | success (data : List Entry)
  | failure (status : Nat) (detail : String)
deriving DecidableEq

/-- The string `str(expected_headers)` interpolated into the schema-error
detail. -/
def expectedHeadersRepr : String :=
  "['filing_date', 'count', 'component']"

/-- How `endpoint_logic` turns an extraction outcome into the HTTP response
actually delivered.  Every `HTTPException` raised inside the function's own
`try` block — including the 404s and the schema 500 — is caught by its
trailing `except Exception as e` and re-raised as
`HTTPException(500, f"Unexpected error: {str(e)}")`, where
`str(HTTPException)` is `"{status_code}: {detail}"`; so those responses
reach the caller with status 500 and a wrapped detail string. -/
def toHttp : ExtractResult → HttpResponse
  | .ok s => .success s
  | .schemaError _ found =>
    .failure 500 ("Unexpected error: 500: CSV missing headers. Expected: "
      ++ expectedHeadersRepr ++ ". Found: " ++ joinSep ", " found ++ ".")
  | .unknownDiscriminator d samples more =>
    .failure 500 ("Unexpected error: 404: Component type '" ++ d
      ++ "' not found. Available: " ++ joinSep ", " samples
      ++ (if more then "..." else ""))
  | .noUsableData d =>
    .failure 500 ("Unexpected error: 404: No data for component '" ++ d ++ "'.")
  | .secondPassExhausted => .failure 500 "Unexpected error: "

/-- The whole per-request pipeline of `endpoint_logic`, as a function of the
fetch outcome: a `requests.exceptions.RequestException` (any network error,
timeout, or, via `raise_for_status`, non-success HTTP status) is mapped —
outside the `try` block, so it is delivered as-is — to a 503; a fetched body
goes through extraction. -/
def widgetResponse (fetched : Except String String) (disc : String) : HttpResponse :=
  match fetched with
  | .error e => .failure 503 ("Could not fetch CSV data: " ++ e)
  | .ok raw => toHttp (extract raw disc)

/-- Python's `str.title()` on ASCII text: a letter is uppercased when the
preceding character is not a letter, lowercased otherwise. -/
def titleChars : Bool → List Char → List Char
  | _, [] => []
  | prevAlpha, c :: cs =>
    if c.isAlpha then
      (if prevAlpha then c.toLower else c.toUpper) :: titleChars true cs
    else c :: titleChars false cs

/-- `value.replace("_", " ").title()`, the option label derivation. -/
def pyTitle (s : String) : String :=
  ⟨titleChars false s.data⟩

/-- `c.replace("_", " ")` for the one-character pattern used here. -/
def underscoreToSpace (v : String) : String :=
  ⟨v.data.map (fun c => if c = '_' then ' ' else c)⟩

/-- The label shown for a component value:
`c.replace("_", " ").title()`. -/
def optionLabel (v : String) : String :=
  pyTitle (underscoreToSpace v)

/-- A dropdown option `{"value": c, "label": ...}` built by
`fetch_options_sync` / `get_unique_components_from_csv`. -/
structure ComponentOption where
  value : String
  label : String
deriving DecidableEq

/-- Lexicographic (code-point) comparison of character lists: Python's
string `<=`. -/
def charListLe : List Char → List Char → Bool
  | [], _ => true
  | _ :: _, [] => false
  | a :: as, b :: bs =>
    if a.toNat = b.toNat then charListLe as bs
    else decide (a.toNat < b.toNat)

/-- Python's string comparison, used by `sorted`. -/
def pyStrLe (a b : String) : Bool :=
  charListLe a.data b.data

/-- Ordering of options used by `sorted(..., key=lambda x: x["label"])`. -/
def optionLE (a b : ComponentOption) : Prop :=
  pyStrLe a.label b.label = true

instance : DecidableRel optionLE :=
  fun a b => inferInstanceAs (Decidable (pyStrLe a.label b.label = true))

theorem charListLe_total (a b : List Char) :
    charListLe a b = true ∨ charListLe b a = true := by
  induction a generalizing b with
  | nil => exact Or.inl rfl
  | cons x xs ih =>
    cases b with
    | nil => exact Or.inr rfl
    | cons y ys =>
      by_cases h : x.toNat = y.toNat
      · rcases ih ys with hl | hr
        · left
          simp only [charListLe]
          rw [if_pos h]
          exact hl
        · right
          simp only [charListLe]
          rw [if_pos h.symm]
          exact hr
      · rcases Nat.lt_or_ge x.toNat y.toNat with hlt | hge
        · left
          simp [charListLe, h, hlt]
        · right
          have h2 : ¬ y.toNat = x.toNat := fun e => h e.symm
          have h3 : y.toNat < x.toNat := lt_of_le_of_ne hge h2
          simp [charListLe, h2, h3]

theorem charListLe_trans (a b c : List Char) (hab : charListLe a b = true)
    (hbc : charListLe b c = true) : charListLe a c = true := by
  induction a generalizing b c with
  | nil => rfl
  | cons x xs ih =>
    cases b with
    | nil => simp [charListLe] at hab
    | cons y ys =>
      cases c with
      | nil => simp [charListLe] at hbc
      | cons z zs =>
        simp only [charListLe] at hab hbc ⊢
        by_cases hxy : x.toNat = y.toNat
        · rw [if_pos hxy] at hab
          by_cases hyz : y.toNat = z.toNat
          · rw [if_pos hyz] at hbc
            rw [if_pos (hxy.trans hyz)]
            exact ih ys zs hab hbc
          · rw [if_neg hyz] at hbc
            have hyz' : y.toNat < z.toNat := of_decide_eq_true hbc
            have hxz : ¬ x.toNat = z.toNat := by omega
            rw [if_neg hxz]
            exact decide_eq_true (by omega)
        · rw [if_neg hxy] at hab
          have hxy' : x.toNat < y.toNat := of_decide_eq_true hab
          by_cases hyz : y.toNat = z.toNat
          · have hxz : ¬ x.toNat = z.toNat := by omega
            rw [if_neg hxz]
            exact decide_eq_true (by omega)
          · rw [if_neg hyz] at hbc
            have hyz' : y.toNat < z.toNat := of_decide_eq_true hbc
            have hxz : ¬ x.toNat = z.toNat := by omega
            rw [if_neg hxz]
            exact decide_eq_true (by omega)

instance : IsTotal ComponentOption optionLE :=
  ⟨fun a b => charListLe_total a.label.data b.label.data⟩

instance : IsTrans ComponentOption optionLE :=
  ⟨fun a b c h1 h2 => charListLe_trans a.label.data b.label.data c.label.data h1 h2⟩

/-- The option lister (`fetch_options_sync` after a successful fetch, and
identically `get_unique_components_from_csv`): empty when the header lacks a
`component` column (or there is no header row at all); otherwise one option
per distinct non-empty (`if comp:`) component value, sorted by label.  The
Lean function is total, matching the Python function's blanket
`except: return []`, which can never propagate an error. -/
def listOptions (raw : String) : List ComponentOption :=
  if headerOf raw = [] ∨ "component" ∉ headerOf raw then []
  else
    List.insertionSort optionLE
      ((((dataRowsOf raw).filterMap (fun r =>
        match pyRowGet (headerOf raw) r "component" with
        | some c => if c = "" then none else some c
        | none => none)).dedup).map (fun c => ⟨c, optionLabel c⟩))

/-- Python's `str.lower()` on ASCII text. -/
def lowerStr (s : String) : String :=
  ⟨s.data.map Char.toLower⟩

/-- A row that the loop keeps: `component` equals the discriminator exactly,
`filing_date` is present and nonempty after stripping, and `float` succeeds
on the (present) `count` string. -/
def validMatch (hdr : List String) (disc : String) (row : List String) : Bool :=
  decide (pyRowGet hdr row "component" = some disc)
  && (match pyRowGet hdr row "filing_date" with
      | some ds => decide (pyStrip ds ≠ "")
      | none => false)
  && (match pyRowGet hdr row "count" with
      | some cs => (parsePyFloat cs).isSome
      | none => false)

theorem parsePyFloat_of_strip_empty (cs : String) (h : pyStrip cs = "") :
    parsePyFloat cs = none := by
  unfold parsePyFloat
  rw [h]
  rfl

theorem rowEntry_isSome_eq (hdr : List String) (disc : String) (row : List String) :
    (rowEntry hdr disc row).isSome = validMatch hdr disc row := by
  unfold rowEntry validMatch
  by_cases h : pyRowGet hdr row "component" = some disc
  · rw [if_pos h, decide_eq_true h]
    cases hc : pyRowGet hdr row "count" with
    | none => simp
    | some cs =>
      cases hd : pyRowGet hdr row "filing_date" with
      | none => simp
      | some ds =>
        simp only [Bool.true_and]
        by_cases hds : pyStrip ds = ""
        · simp only [hds]
          rw [if_neg (by simp [hds])]
          simp
        · by_cases hcs : pyStrip cs = ""
          · rw [if_neg (by simp [hcs])]
            rw [parsePyFloat_of_strip_empty cs hcs]
            simp [hds]
          · rw [if_pos ⟨hcs, hds⟩]
            cases hp : parsePyFloat cs <;> simp [hds]
  · rw [if_neg h]
    simp [h]

theorem rowEntry_some_spec {hdr : List String} {disc : String} {row : List String}
    {e : Entry} (h : rowEntry hdr disc row = some e) :
    pyStrip e.filing_date ≠ "" ∧
      ∃ cs : String, pyStrip cs ≠ "" ∧ parsePyFloat cs = some e.count := by
  unfold rowEntry at h
  by_cases hcomp : pyRowGet hdr row "component" = some disc
  · rw [if_pos hcomp] at h
    cases hc : pyRowGet hdr row "count" with
    | none =>
      simp only [hc] at h
      exact absurd h (by simp)
    | some cs =>
      cases hd : pyRowGet hdr row "filing_date" with
      | none =>
        simp only [hc, hd] at h
        exact absurd h (by simp)
      | some ds =>
        simp only [hc, hd] at h
        by_cases hstrip : pyStrip cs ≠ "" ∧ pyStrip ds ≠ ""
        · rw [if_pos hstrip] at h
          cases hp : parsePyFloat cs with
          | none =>
            simp only [hp] at h
            exact absurd h (by simp)
          | some v =>
            simp only [hp] at h
            injection h with h1
            subst h1
            exact ⟨hstrip.2, cs, hstrip.1, hp⟩
        · rw [if_neg hstrip] at h
          exact absurd h (by simp)
  · rw [if_neg hcomp] at h
    exact absurd h (by simp)

theorem extract_ok_eq {raw disc : String} {series : List Entry}
    (h : extract raw disc = ExtractResult.ok series) :
    series = seriesOf raw disc := by
  unfold extract at h
  split at h
  · exact absurd h (by simp)
  · split at h
    · split at h
      · exact absurd h (by simp)
      · split at h <;> exact absurd h (by simp)
    · injection h with h1
      exact h1.symm

theorem filterMap_length_eq_filter (hdr : List String) (disc : String)
    (l : List (List String)) :
    (l.filterMap (rowEntry hdr disc)).length = (l.filter (validMatch hdr disc)).length := by
  induction l with
  | nil => rfl
  | cons r t ih =>
    rw [List.filterMap_cons, List.filter_cons]
    cases hre : rowEntry hdr disc r with
    | none =>
      have hv : validMatch hdr disc r = false := by
        rw [← rowEntry_isSome_eq, hre]
        rfl
      simp [hv, ih]
    | some e =>
      have hv : validMatch hdr disc r = true := by
        rw [← rowEntry_isSome_eq, hre]
        rfl
      simp [hv, ih]

theorem requiredHeaders_all_mem {hdr : List String}
    (h1 : "filing_date" ∈ hdr) (h2 : "count" ∈ hdr) (h3 : "component" ∈ hdr) :
    ∀ h ∈ requiredHeaders, h ∈ hdr := by
  intro x hx
  simp only [requiredHeaders, List.mem_cons, List.not_mem_nil, or_false] at hx
  rcases hx with rfl | rfl | rfl
  · exact h1
  · exact h2
  · exact h3

/-- C5: for every input, the option lister is total (it is a plain Lean
function, matching the Python blanket `except: return []`), and when the
header row lacks a `component` column — in particular whenever there is no
usable header at all — it returns the empty sequence rather than failing. -/
theorem c5_listOptions_total_empty_on_missing_component (raw : String)
    (h : "component" ∉ headerOf raw) :
    listOptions raw = [] := by
  unfold listOptions
  rw [if_pos (Or.inr h)]

theorem c5_listOptions_total_empty_on_missing_component_witness :
    ("component" ∉ headerOf "filing_date,count\n2024-01-01,5\n") ∧
      listOptions "filing_date,count\n2024-01-01,5\n" = [] :=
  ⟨by decide, c5_listOptions_total_empty_on_missing_component
    "filing_date,count\n2024-01-01,5\n" (by decide)⟩

/-- C7: for every CSV text whose header row misses any of `filing_date`,
`count`, `component` (in particular `count`), and every discriminator,
extraction fails with the schema error carrying the expected and the found
header lists. -/
theorem c7_extract_schemaError_on_missing_header (raw disc : String)
    (h : ¬ ∀ hd ∈ requiredHeaders, hd ∈ headerOf raw) :
    extract raw disc = ExtractResult.schemaError requiredHeaders (foundHeadersOf raw) := by
  unfold extract
  rw [if_pos (Or.inr h)]

theorem c7_extract_schemaError_on_missing_header_witness :
    (¬ ∀ hd ∈ requiredHeaders, hd ∈ headerOf "filing_date,component\n2024-01-01,x\n") ∧
      extract "filing_date,component\n2024-01-01,x\n" "x"
        = ExtractResult.schemaError requiredHeaders ["filing_date", "component"] :=
  ⟨by decide, c7_extract_schemaError_on_missing_header
    "filing_date,component\n2024-01-01,x\n" "x" (by decide)⟩

/-- C3: for every CSV text whose header row contains `filing_date`, `count`
and `component`, and every discriminator with at least one matching row with
a valid date and count, extraction succeeds with the nonempty series of the
matching valid rows — built in the CSV's original row order with entries
`{filing_date, count: parsedFloat}` — whose length is the number of those
rows. -/
theorem c3_extract_ok_on_valid_matching_rows (raw disc : String)
    (h1 : "filing_date" ∈ headerOf raw) (h2 : "count" ∈ headerOf raw)
    (h3 : "component" ∈ headerOf raw)
    (h4 : ∃ r ∈ dataRowsOf raw, validMatch (headerOf raw) disc r = true) :
    extract raw disc = ExtractResult.ok (seriesOf raw disc) ∧
    seriesOf raw disc ≠ [] ∧
    (seriesOf raw disc).length
      = ((dataRowsOf raw).filter (validMatch (headerOf raw) disc)).length := by
  have hne : seriesOf raw disc ≠ [] := by
    obtain ⟨r, hr, hv⟩ := h4
    have hsome : (rowEntry (headerOf raw) disc r).isSome = true := by
      rw [rowEntry_isSome_eq]
      exact hv
    obtain ⟨e, he⟩ := Option.isSome_iff_exists.mp hsome
    exact List.ne_nil_of_mem (List.mem_filterMap.mpr ⟨r, hr, he⟩)
  have hcond : ¬ (headerOf raw = [] ∨ ¬ ∀ h ∈ requiredHeaders, h ∈ headerOf raw) := by
    push_neg
    exact ⟨List.ne_nil_of_mem h1, requiredHeaders_all_mem h1 h2 h3⟩
  refine ⟨?_, hne, filterMap_length_eq_filter _ _ _⟩
  unfold extract
  rw [if_neg hcond, if_neg hne]

theorem c3_extract_ok_on_valid_matching_rows_witness :
    ("filing_date" ∈ headerOf "filing_date,count,component\n2024-01-01,5,x\n2024-01-02,oops,x\n2024-01-03,7,y\n") ∧
    ("count" ∈ headerOf "filing_date,count,component\n2024-01-01,5,x\n2024-01-02,oops,x\n2024-01-03,7,y\n") ∧
    ("component" ∈ headerOf "filing_date,count,component\n2024-01-01,5,x\n2024-01-02,oops,x\n2024-01-03,7,y\n") ∧
    (∃ r ∈ dataRowsOf "filing_date,count,component\n2024-01-01,5,x\n2024-01-02,oops,x\n2024-01-03,7,y\n",
      validMatch (headerOf "filing_date,count,component\n2024-01-01,5,x\n2024-01-02,oops,x\n2024-01-03,7,y\n") "x" r = true) ∧
    (extract "filing_date,count,component\n2024-01-01,5,x\n2024-01-02,oops,x\n2024-01-03,7,y\n" "x"
        = ExtractResult.ok (seriesOf "filing_date,count,component\n2024-01-01,5,x\n2024-01-02,oops,x\n2024-01-03,7,y\n" "x") ∧
      seriesOf "filing_date,count,component\n2024-01-01,5,x\n2024-01-02,oops,x\n2024-01-03,7,y\n" "x" ≠ [] ∧
      (seriesOf "filing_date,count,component\n2024-01-01,5,x\n2024-01-02,oops,x\n2024-01-03,7,y\n" "x").length
        = ((dataRowsOf "filing_date,count,component\n2024-01-01,5,x\n2024-01-02,oops,x\n2024-01-03,7,y\n").filter
            (validMatch (headerOf "filing_date,count,component\n2024-01-01,5,x\n2024-01-02,oops,x\n2024-01-03,7,y\n") "x")).length) :=
  ⟨by decide, by decide, by decide, by decide,
    c3_extract_ok_on_valid_matching_rows
      "filing_date,count,component\n2024-01-01,5,x\n2024-01-02,oops,x\n2024-01-03,7,y\n" "x"
      (by decide) (by decide) (by decide) (by decide)⟩

/-- C6: for every CSV text with a `component` header column, the option list
contains exactly one option per distinct non-empty `component` value in the
file (case-sensitive, `value` preserved exactly), each labelled by the value
with underscores replaced by spaces and then title-cased, and the options
are sorted ascending by label. -/
theorem c6_listOptions_characterization (raw : String)
    (h : "component" ∈ headerOf raw) :
    (∀ v : String,
      (∃ o ∈ listOptions raw, o.value = v) ↔
        (v ≠ "" ∧ ∃ r ∈ dataRowsOf raw, pyRowGet (headerOf raw) r "component" = some v)) ∧
    (List.map ComponentOption.value (listOptions raw)).Nodup ∧
    (∀ o ∈ listOptions raw, o.label = pyTitle (underscoreToSpace o.value)) ∧
    List.Sorted optionLE (listOptions raw) := by
  have hcond : ¬ (headerOf raw = [] ∨ "component" ∉ headerOf raw) := by
    push_neg
    exact ⟨List.ne_nil_of_mem h, h⟩
  have hopts : listOptions raw
      = List.insertionSort optionLE
        ((((dataRowsOf raw).filterMap (fun r =>
          match pyRowGet (headerOf raw) r "component" with
          | some c => if c = "" then none else some c
          | none => none)).dedup).map (fun c => ⟨c, optionLabel c⟩)) := by
    unfold listOptions
    rw [if_neg hcond]
  have hperm := List.perm_insertionSort optionLE
    ((((dataRowsOf raw).filterMap (fun r =>
      match pyRowGet (headerOf raw) r "component" with
      | some c => if c = "" then none else some c
      | none => none)).dedup).map (fun c => (⟨c, optionLabel c⟩ : ComponentOption)))
  refine ⟨?_, ?_, ?_, ?_⟩
  · intro v
    constructor
    · rintro ⟨o, ho, rfl⟩
      rw [hopts] at ho
      have ho' := hperm.subset ho
      obtain ⟨c, hc, rfl⟩ := List.mem_map.mp ho'
      obtain ⟨r, hr, hfr⟩ := List.mem_filterMap.mp (List.mem_dedup.mp hc)
      cases hg : pyRowGet (headerOf raw) r "component" with
      | none => simp [hg] at hfr
      | some c2 =>
        simp only [hg] at hfr
        by_cases hc2 : c2 = ""
        · rw [if_pos hc2] at hfr
          exact absurd hfr (by simp)
        · rw [if_neg hc2] at hfr
          injection hfr with hfr'
          subst hfr'
          exact ⟨hc2, r, hr, hg⟩
    · rintro ⟨hv, r, hr, hg⟩
      refine ⟨⟨v, optionLabel v⟩, ?_, rfl⟩
      rw [hopts]
      refine hperm.mem_iff.mpr (List.mem_map.mpr ⟨v, ?_, rfl⟩)
      refine List.mem_dedup.mpr (List.mem_filterMap.mpr ⟨r, hr, ?_⟩)
      simp [hg, hv]
  · rw [hopts]
    rw [List.Perm.nodup_iff (List.Perm.map ComponentOption.value hperm)]
    rw [List.map_map]
    have hid : (List.map (ComponentOption.value ∘ fun c => (⟨c, optionLabel c⟩ : ComponentOption))
        (((dataRowsOf raw).filterMap (fun r =>
          match pyRowGet (headerOf raw) r "component" with
          | some c => if c = "" then none else some c
          | none => none)).dedup))
        = ((dataRowsOf raw).filterMap (fun r =>
          match pyRowGet (headerOf raw) r "component" with
          | some c => if c = "" then none else some c
          | none => none)).dedup := by
      apply List.map_id''
      intro c
      rfl
    rw [hid]
    exact List.nodup_dedup _
  · intro o ho
    rw [hopts] at ho
    obtain ⟨c, _, rfl⟩ := List.mem_map.mp (hperm.subset ho)
    rfl
  · rw [hopts]
    exact List.sorted_insertionSort optionLE _

theorem c6_listOptions_characterization_witness :
    ("component" ∈ headerOf "component\nb\na\nb\nA\n") ∧
    ((∀ v : String,
      (∃ o ∈ listOptions "component\nb\na\nb\nA\n", o.value = v) ↔
        (v ≠ "" ∧ ∃ r ∈ dataRowsOf "component\nb\na\nb\nA\n",
          pyRowGet (headerOf "component\nb\na\nb\nA\n") r "component" = some v)) ∧
    (List.map ComponentOption.value (listOptions "component\nb\na\nb\nA\n")).Nodup ∧
    (∀ o ∈ listOptions "component\nb\na\nb\nA\n",
      o.label = pyTitle (underscoreToSpace o.value)) ∧
    List.Sorted optionLE (listOptions "component\nb\na\nb\nA\n")) :=
  ⟨by decide, c6_listOptions_characterization "component\nb\na\nb\nA\n" (by decide)⟩

/-- C9 (counterexample): the claimed invariant "every entry of a returned
series has a finite numeric count" fails: `float("inf")` succeeds, so a row
with count string `inf` is kept and the returned series contains an infinite
count. -/
theorem c9_counterexample_infinite_count :
    extract "filing_date,count,component\n2024-01-01,inf,x\n" "x"
      = ExtractResult.ok [⟨"2024-01-01", PyFloat.infinity false⟩] ∧
    ¬ (∀ e ∈ [(⟨"2024-01-01", PyFloat.infinity false⟩ : Entry)],
        e.count.isFinite = true) := by
  decide

/-- C9 (amended): every entry of a successfully returned series has a
`filing_date` that is nonempty after stripping, and a count that is the
successful result of `float` on some nonempty count string — a value that
need not be finite (count strings such as `inf`, `nan`, or literals beyond
the binary64 range produce non-finite counts). -/
theorem c9_series_entries_invariant (raw disc : String) (series : List Entry)
    (h : extract raw disc = ExtractResult.ok series) :
    ∀ e ∈ series, pyStrip e.filing_date ≠ "" ∧
      ∃ cs : String, pyStrip cs ≠ "" ∧ parsePyFloat cs = some e.count := by
  intro e he
  rw [extract_ok_eq h] at he
  unfold seriesOf at he
  obtain ⟨r, _, hre⟩ := List.mem_filterMap.mp he
  exact rowEntry_some_spec hre

theorem c9_series_entries_invariant_witness :
    (extract "filing_date,count,component\n2024-01-01,5,x\n" "x"
      = ExtractResult.ok [⟨"2024-01-01", PyFloat.finite 5 0⟩]) ∧
    (∀ e ∈ [(⟨"2024-01-01", PyFloat.finite 5 0⟩ : Entry)],
      pyStrip e.filing_date ≠ "" ∧
        ∃ cs : String, pyStrip cs ≠ "" ∧ parsePyFloat cs = some e.count) :=
  ⟨by decide, c9_series_entries_invariant "filing_date,count,component\n2024-01-01,5,x\n" "x"
    [⟨"2024-01-01", PyFloat.finite 5 0⟩] (by decide)⟩

/-- C10: row selection compares the row's `component` to the discriminator
by exact string equality — no stripping, no case folding (unlike
`filing_date` and `count`, which are stripped for the emptiness check, see
`rowEntry`) — so a row whose `component` differs from the discriminator only
by surrounding whitespace or letter case contributes nothing to the
series. -/
theorem c10_component_compared_exactly (raw disc : String) (series : List Entry)
    (h : extract raw disc = ExtractResult.ok series) :
    series = (dataRowsOf raw).filterMap (rowEntry (headerOf raw) disc) ∧
    (∀ row c, pyRowGet (headerOf raw) row "component" = some c → c ≠ disc →
      rowEntry (headerOf raw) disc row = none) ∧
    (∀ row c, pyRowGet (headerOf raw) row "component" = some c →
      (pyStrip c = pyStrip disc ∨ lowerStr c = lowerStr disc) → c ≠ disc →
      rowEntry (headerOf raw) disc row = none) := by
  have hnone : ∀ row c, pyRowGet (headerOf raw) row "component" = some c → c ≠ disc →
      rowEntry (headerOf raw) disc row = none := by
    intro row c hg hne
    unfold rowEntry
    rw [hg, if_neg (fun he => hne (Option.some.inj he))]
  exact ⟨extract_ok_eq h, hnone, fun row c hg _ hne => hnone row c hg hne⟩

theorem c10_component_compared_exactly_witness :
    (extract "filing_date,count,component\n2024-01-01,5,X\n2024-01-02,6, x\n2024-01-03,7,x\n" "x"
      = ExtractResult.ok [⟨"2024-01-03", PyFloat.finite 7 0⟩]) ∧
    ([⟨"2024-01-03", PyFloat.finite 7 0⟩]
      = (dataRowsOf "filing_date,count,component\n2024-01-01,5,X\n2024-01-02,6, x\n2024-01-03,7,x\n").filterMap
          (rowEntry (headerOf "filing_date,count,component\n2024-01-01,5,X\n2024-01-02,6, x\n2024-01-03,7,x\n") "x") ∧
    (∀ row c,
      pyRowGet (headerOf "filing_date,count,component\n2024-01-01,5,X\n2024-01-02,6, x\n2024-01-03,7,x\n") row "component" = some c →
      c ≠ "x" →
      rowEntry (headerOf "filing_date,count,component\n2024-01-01,5,X\n2024-01-02,6, x\n2024-01-03,7,x\n") "x" row = none) ∧
    (∀ row c,
      pyRowGet (headerOf "filing_date,count,component\n2024-01-01,5,X\n2024-01-02,6, x\n2024-01-03,7,x\n") row "component" = some c →
      (pyStrip c = pyStrip "x" ∨ lowerStr c = lowerStr "x") → c ≠ "x" →
      rowEntry (headerOf "filing_date,count,component\n2024-01-01,5,X\n2024-01-02,6, x\n2024-01-03,7,x\n") "x" row = none)) :=
  ⟨by decide, c10_component_compared_exactly
    "filing_date,count,component\n2024-01-01,5,X\n2024-01-02,6, x\n2024-01-03,7,x\n" "x"
    [⟨"2024-01-03", PyFloat.finite 7 0⟩] (by decide)⟩

/-- C1 (code divergence): the second pass builds its component set from a
fresh `DictReader` whose `fieldnames` access already consumed the header, so
its `next(temp_reader)` skips the first *data* row; a discriminator whose
only occurrence is in that first data row is therefore classified as an
unknown discriminator ("not found" with samples) even though it is a
component value of the file — the claim requires the "no usable data"
classification there. -/
theorem c1_second_pass_misses_first_data_row :
    extract "filing_date,count,component\n,5,x\n2024-01-02,6,y\n" "x"
      = ExtractResult.unknownDiscriminator "x" ["y"] false ∧
    (∃ r ∈ dataRowsOf "filing_date,count,component\n,5,x\n2024-01-02,6,y\n",
      pyRowGet (headerOf "filing_date,count,component\n,5,x\n2024-01-02,6,y\n") r "component"
        = some "x") := by
  decide

/-- C2 (code divergence): the 404 `HTTPException` raised for a not-found
classification is raised inside the endpoint's own `try` block, whose
trailing `except Exception` re-raises it as a 500 "Unexpected error" — so
the response delivered for an absent discriminator has status 500, not
404. -/
theorem c2_not_found_delivered_as_500 :
    widgetResponse (Except.ok "filing_date,count,component\n2024-01-01,5,x\n2024-01-02,6,x\n") "z"
      = HttpResponse.failure 500
          "Unexpected error: 404: Component type 'z' not found. Available: x" := by
  decide

/-- C4 (code divergence): the first option returned by the lister can be a
component value occurring only in the first data row; the extractor's second
pass misses that row, so feeding that option's `value` back as the
discriminator produces the "unknown discriminator" cause, which the claim
rules out. -/
theorem c4_roundtrip_first_option_unknown :
    (listOptions "filing_date,count,component\n,5,a\n2024-01-02,6,b\n").head?.map
        ComponentOption.value = some "a" ∧
    extract "filing_date,count,component\n,5,a\n2024-01-02,6,b\n" "a"
      = ExtractResult.unknownDiscriminator "a" ["b"] false := by
  decide

/-- C8: for every widget request whose fetch step fails (any
`RequestException`: network error, timeout, DNS failure, or — via
`raise_for_status` — a non-success HTTP status), the delivered response is a
503 with a non-empty detail string, and no data array is returned. -/
theorem c8_fetch_failure_is_503 (e disc : String) :
    widgetResponse (Except.error e) disc
      = HttpResponse.failure 503 ("Could not fetch CSV data: " ++ e) ∧
    ("Could not fetch CSV data: " ++ e) ≠ "" ∧
    ∀ s, widgetResponse (Except.error e) disc ≠ HttpResponse.success s := by
  refine ⟨rfl, ?_, ?_⟩
  · intro hemp
    have hlen := congrArg String.length hemp
    rw [String.length_append] at hlen
    have h26 : ("Could not fetch CSV data: ").length = 26 := by decide
    have h0 : ("" : String).length = 0 := by decide
    rw [h26, h0] at hlen
    omega
  · intro s hs
    exact HttpResponse.noConfusion hs

end DatamuleWidgets
